import Mathlib

/-!
# Verification of the Newsroom approval workflow

Shallow embedding of the Capstone newsroom application:

* `newsroom/models.py`   — `User`, `Publisher`, `Article` with `clean`/`save`
* `newsroom/signals.py`  — `mark_just_approved`, `_subscriber_emails`,
  `on_article_approved`
* `newsroom/api/views.py` — `ArticleViewSet.approve`, `perform_update`,
  `perform_destroy`, `subscribed`
* `newsroom/api/permissions.py` — `IsJournalist` and friends

Django's ORM is modelled functionally: the database is a list of persisted
rows, timestamps are natural numbers, and `save` is a function from
(users, database, instance, now) to either a `ValidationError` or the new
database together with the signal side effects (the notification fan-out).
-/

namespace Newsroom

/-- `User.Roles` in `newsroom/models.py`. -/
inductive Role where
  | reader
  | editor
  | journalist
deriving DecidableEq, Repr

/-- `Article.Status` in `newsroom/models.py`. -/
inductive Status where
  | draft
  | pending
  | approved
  | rejected
deriving DecidableEq, Repr

/-- The custom `User` model (`newsroom/models.py`).  Only the fields the
claims touch are carried; `subsToPublishers` / `subsToJournalists` are the
many-to-many reader-subscription sets, held as lists of ids, and `pk = none`
means the row has never been persisted.  Every `User` value here stands for
an authenticated user (`is_authenticated = True`). -/
structure User where
  pk : Option Nat
  username : String
  email : String
  role : Role
  is_staff : Bool
  is_superuser : Bool
  subsToPublishers : List Nat
  subsToJournalists : List Nat
  publishedArticles : List Nat
  groups : List String
deriving DecidableEq, Repr

/-- `User.is_reader` (`models.py`). -/
def User.is_reader (u : User) : Bool := u.role = Role.reader

/-- `User.is_editor` (`models.py`). -/
def User.is_editor (u : User) : Bool := u.role = Role.editor

/-- `User.is_journalist` (`models.py`). -/
def User.is_journalist (u : User) : Bool := u.role = Role.journalist

/-- The `Publisher` model (`newsroom/models.py`): only `id` and `name`
matter to the claims. -/
structure Publisher where
  id : Nat
  name : String
deriving DecidableEq, Repr

/-- The `Article` model (`newsroom/models.py`).  `publisher` and `author`
are the forward relations (Django resolves them to full objects, which we
embed directly); `approvedAt` is the nullable `approved_at` timestamp. -/
structure Article where
  pk : Option Nat
  title : String
  body : String
  publisher : Publisher
  author : User
  status : Status
  createdAt : Nat
  approvedAt : Option Nat
deriving DecidableEq, Repr

/-- The two `ValidationError` branches of `Article.clean` (`models.py`). -/
inductive VErr where
  | authorRole      -- "Author must have the Journalist role."
  | approvedAtSet   -- "approved_at can only be set when status is APPROVED."
deriving DecidableEq, Repr

/-- `Article.clean` (`models.py`, lines 292–316): author must be a
journalist; `approved_at` may be non-null only when status is APPROVED;
when status is APPROVED and `approved_at` is unset, it is auto-assigned
`timezone.now()`. -/
def Article.clean (a : Article) (now : Nat) : Except VErr Article :=
  if ¬ a.author.is_journalist then
    .error .authorRole
  else if a.status ≠ Status.approved ∧ a.approvedAt.isSome then
    .error .approvedAtSet
  else if a.status = Status.approved ∧ a.approvedAt.isNone then
    .ok { a with approvedAt := some now }
  else
    .ok a

/-- A database of persisted article rows (`Article.objects`): rows carry
`pk = some k`. -/
abbrev Db := List Article

/-- `Article.objects.get(pk=k)`: the persisted row with primary key `k`. -/
def dbGet (db : Db) (k : Nat) : Option Article :=
  List.find? (fun r => r.pk = some k) db

/-- The INSERT/UPDATE a Django `save` performs: an instance with a pk
replaces the row with that pk, a fresh instance is appended with a new pk
(one more than the number of rows, a simple fresh-key scheme). -/
def dbWrite (db : Db) (a : Article) : Db × Article :=
  match a.pk with
  | some k =>
      (db.map (fun r => if r.pk = some k then a else r), a)
  | none =>
      let fresh := { a with pk := some (db.length + 1) }
      (db ++ [fresh], fresh)

/-- `mark_just_approved` (`signals.py`, lines 52–88), the `pre_save`
receiver: returns the (possibly updated) instance together with the
`_just_approved` flag.  A fresh instance (`not instance.pk`) saved directly
as APPROVED counts as just approved; otherwise the previous persisted row
is fetched and the flag is set exactly when the persisted status was not
APPROVED and the new status is APPROVED.  In both approving branches
`approved_at` is defaulted to `now` when unset. -/
def mark_just_approved (db : Db) (a : Article) (now : Nat) : Article × Bool :=
  match a.pk with
  | none =>
      if a.status = Status.approved then
        ({ a with approvedAt := some (a.approvedAt.getD now) }, true)
      else (a, false)
  | some k =>
      match dbGet db k with
      | none => (a, false)
      | some previous =>
          if previous.status ≠ Status.approved ∧ a.status = Status.approved then
            ({ a with approvedAt := some (a.approvedAt.getD now) }, true)
          else (a, false)

/-- `_subscriber_emails` (`signals.py`, lines 93–112): the distinct emails
of Reader-role users subscribed to the article's publisher or to its
author, with empty emails filtered out.  (`.distinct().values_list("email")`
issues a `SELECT DISTINCT email`, so the emails themselves are
deduplicated.) -/
def subscriber_emails (users : List User) (a : Article) : List String :=
  (((users.filter (fun u =>
      u.is_reader ∧
        (a.publisher.id ∈ u.subsToPublishers ∨
          (a.author.pk.getD 0) ∈ u.subsToJournalists))).map
    User.email).dedup).filter (fun e => e ≠ "")

/-- One email message: (subject, body, recipient). -/
structure Message where
  subject : String
  body : String
  recipient : String
deriving DecidableEq, Repr

/-- The outcome of the notification fan-out: the recipient list, the
per-subscriber messages and the optional extra message to the author. -/
structure FanOut where
  recipients : List String
  subscriberMsgs : List Message
  authorMsg : Option Message
deriving DecidableEq, Repr

/-- The body preview built in `on_article_approved`: the article body if at
most 500 characters, otherwise its first 500 characters followed by
`"..."`. -/
def preview (body : String) : String :=
  if body.length ≤ 500 then body else (body.take 500) ++ "..."

/-- `on_article_approved` (`signals.py`, lines 118–179), the `post_save`
receiver.  Returns `none` when the fan-out is not triggered (the
`_just_approved` flag is false) and `some` of the dispatched messages when
it is: one message per subscriber email with subject
`"{publisher.name}: {title}"` and the truncated body, plus a personalized
message to the author when their email is non-empty and not already among
the recipients. -/
def on_article_approved (users : List User) (a : Article)
    (justApproved : Bool) : Option FanOut :=
  if ¬ justApproved then none
  else
    let subject := a.publisher.name ++ ": " ++ a.title
    let recipients := subscriber_emails users a
    let msgs := recipients.map (fun addr =>
      { subject := subject, body := preview a.body, recipient := addr })
    let authorEmail := a.author.email
    let authorMsg :=
      if authorEmail ≠ "" ∧ authorEmail ∉ recipients then
        some { subject := "Article approved: " ++ a.title,
               body := "Hi " ++ a.author.username ++ ",\n\nYour article '" ++
                 a.title ++ "' at " ++ a.publisher.name ++ " was approved.",
               recipient := authorEmail }
      else none
    some { recipients := recipients, subscriberMsgs := msgs,
           authorMsg := authorMsg }

/-- The result of a successful `Article.save`: the new database, the saved
row, the `_just_approved` flag and the fan-out performed by the `post_save`
receiver. -/
structure SaveResult where
  db : Db
  article : Article
  justApproved : Bool
  fanout : Option FanOut
deriving Repr

/-- `Article.save` (`models.py`, lines 318–327) together with the signal
receivers it fires: `full_clean` (which runs `Article.clean`) first — a
`ValidationError` aborts the save with nothing persisted — then the
`pre_save` receiver `mark_just_approved`, the database write, and the
`post_save` receiver `on_article_approved`. -/
def articleSave (users : List User) (db : Db) (a : Article) (now : Nat) :
    Except VErr SaveResult :=
  match Article.clean a now with
  | .error e => .error e
  | .ok cleaned =>
      let marked := (mark_just_approved db cleaned now).1
      let just := (mark_just_approved db cleaned now).2
      let db2 := (dbWrite db marked).1
      let saved := (dbWrite db marked).2
      .ok { db := db2, article := saved, justApproved := just,
            fanout := on_article_approved users saved just }

/-- The two JSON `status` values the `approve` action can answer with. -/
inductive ApproveStatus where
  | approved
  | already_approved
deriving DecidableEq, Repr

/-- The response of `ArticleViewSet.approve` plus the resulting database and
the fan-out its save (if any) performed. -/
structure ApproveResponse where
  result : ApproveStatus
  approvedAt : Option Nat
  db : Db
  fanout : Option FanOut
  savedRow : Option Article   -- the row written by the save, if one happened
deriving Repr

/-- `ArticleViewSet.approve` (`api/views.py`, lines 149–174): when the
article is not yet APPROVED, set status to APPROVED, default `approved_at`
to now when unset, save (which fires the signal receivers) and answer
`"approved"`; when it already is APPROVED, answer `"already_approved"`
with the existing timestamp without saving. -/
def approve (users : List User) (db : Db) (article : Article) (now : Nat) :
    Except VErr ApproveResponse :=
  if article.status ≠ Status.approved then
    match articleSave users db
      { article with
        status := Status.approved,
        approvedAt := some (article.approvedAt.getD now) } now with
    | .error e => .error e
    | .ok r =>
        .ok { result := .approved, approvedAt := r.article.approvedAt,
              db := r.db, fanout := r.fanout, savedRow := some r.article }
  else
    .ok { result := .already_approved, approvedAt := article.approvedAt,
          db := db, fanout := none, savedRow := none }

/-- `_is_admin` (`api/permissions.py`): staff or superuser. -/
def is_admin (u : User) : Bool := u.is_staff || u.is_superuser

/-- `IsJournalist.has_permission` (`api/permissions.py`, lines 140–150):
journalists plus staff/superusers.  `ArticleViewSet.get_permissions`
installs exactly this class for the `update`, `partial_update` and
`destroy` actions (`api/views.py`, lines 51–57). -/
def isJournalistPerm (u : User) : Bool := u.is_journalist || is_admin u

/-- `ArticleViewSet.get_queryset` (`api/views.py`, lines 59–79) for an
authenticated user: staff/superusers and Editors see every article,
Journalists see their own plus the APPROVED ones, everyone else only the
APPROVED ones. -/
def visibleArticles (u : User) (db : Db) : Db :=
  if u.is_superuser || u.is_staff then db
  else if u.is_editor then db
  else if u.is_journalist then
    db.filter (fun a => a.author.pk = u.pk ∨ a.status = Status.approved)
  else db.filter (fun a => a.status = Status.approved)

/-- `self.get_object()` for a detail request: the row with the requested
pk *within the actor's role-filtered queryset*; `none` is DRF's Http404
(`get_object_or_404` over `get_queryset`). -/
def get_object (u : User) (db : Db) (k : Nat) : Option Article :=
  dbGet (visibleArticles u db) k

/-- Outcome of one update/delete request. -/
inductive Decision where
  | allowed
  | deniedView    -- rejected by the view-level permission class (403)
  | notFound      -- Http404: the pk is not in the actor's queryset
  | deniedObject  -- `PermissionDenied` raised inside perform_update/destroy
deriving DecidableEq, Repr

/-- One `update`/`partial_update` request for pk `k`: first the view-level
`IsJournalist` permission from `get_permissions` (`api/views.py`, lines
51–57, checked by DRF's dispatch before the handler runs), then
`get_object()` against the role-filtered queryset (Http404 on a miss),
then the role checks of `perform_update` (lines 98–122). -/
def update_decision (u : User) (db : Db) (k : Nat) : Decision :=
  if ¬ isJournalistPerm u then .deniedView
  else
    match get_object u db k with
    | none => .notFound
    | some obj =>
        if is_admin u then .allowed
        else if u.is_editor then .allowed
        else if u.is_journalist then
          if obj.author.pk ≠ u.pk then .deniedObject else .allowed
        else .deniedObject

/-- One `destroy` request for pk `k`: the view-level `IsJournalist`
permission, then `get_object()` against the role-filtered queryset
(Http404 on a miss), then the role checks of `perform_destroy`
(`api/views.py`, lines 124–147) — the same logic as for update. -/
def destroy_decision (u : User) (db : Db) (k : Nat) : Decision :=
  if ¬ isJournalistPerm u then .deniedView
  else
    match get_object u db k with
    | none => .notFound
    | some obj =>
        if is_admin u then .allowed
        else if u.is_editor then .allowed
        else if u.is_journalist then
          if obj.author.pk ≠ u.pk then .deniedObject else .allowed
        else .deniedObject

/-- One full update request against the API: on a 403, 404 or
`PermissionDenied` the database is untouched; when allowed,
`serializer.save()` runs the model save pipeline on the updated
instance. -/
def apiUpdate (users : List User) (db : Db) (actor : User) (k : Nat)
    (updated : Article) (now : Nat) : Decision × Db :=
  match update_decision actor db k with
  | .allowed =>
      match articleSave users db updated now with
      | .error _ => (.allowed, db)
      | .ok r => (.allowed, r.db)
  | d => (d, db)

/-- One full destroy request against the API: on a 403, 404 or
`PermissionDenied` the database is untouched; when allowed,
`instance.delete()` removes the fetched row. -/
def apiDestroy (db : Db) (actor : User) (k : Nat) : Decision × Db :=
  match destroy_decision actor db k with
  | .allowed => (.allowed, db.filter (fun r => r.pk ≠ some k))
  | d => (d, db)

/-- The output order of `order_by("-approved_at", "-created_at")`:
`x` comes no later than `y` when `x`'s approval time is larger, or equal
with a creation time at least as large. -/
def newestFirst (x y : Article) : Prop :=
  y.approvedAt.getD 0 < x.approvedAt.getD 0 ∨
    (y.approvedAt.getD 0 = x.approvedAt.getD 0 ∧ y.createdAt ≤ x.createdAt)

instance : DecidableRel newestFirst := fun x y => by
  unfold newestFirst; infer_instance

instance : IsTotal Article newestFirst :=
  ⟨by intro x y; unfold newestFirst; omega⟩

instance : IsTrans Article newestFirst :=
  ⟨by intro x y z; unfold newestFirst; omega⟩

/-- `ArticleViewSet.subscribed` (`api/views.py`, lines 192–219): for a
Reader, the APPROVED articles whose publisher is among the reader's
subscribed publishers or whose author is among their subscribed
journalists, ordered by `-approved_at, -created_at`; for every other
caller the empty queryset. -/
def subscribed (db : Db) (u : User) : List Article :=
  if u.is_reader then
    List.insertionSort newestFirst
      (db.filter (fun a =>
        a.status = Status.approved ∧
          (a.publisher.id ∈ u.subsToPublishers ∨
            (a.author.pk.getD 0) ∈ u.subsToJournalists)))
  else []

/-- The two `ValidationError` branches of `User.clean` (`models.py`). -/
inductive UVErr where
  | journalistSubs   -- "Journalists cannot have reader subscriptions."
  | readerPublished  -- "Readers cannot have journalist publishing fields."
deriving DecidableEq, Repr

/-- `User.clean` (`models.py`, lines 99–125): a persisted Journalist must
have empty reader-subscription sets; a persisted Reader must have an empty
published-articles set. -/
def User.clean (u : User) : Except UVErr Unit :=
  if u.role = Role.journalist ∧ u.pk.isSome ∧
      (u.subsToPublishers ≠ [] ∨ u.subsToJournalists ≠ []) then
    .error .journalistSubs
  else if u.role = Role.reader ∧ u.pk.isSome ∧ u.publishedArticles ≠ [] then
    .error .readerPublished
  else
    .ok ()

/-- INSERT/UPDATE of a user row, mirroring `dbWrite`. -/
def userDbWrite (udb : List User) (u : User) : List User × User :=
  match u.pk with
  | some k =>
      (udb.map (fun r => if r.pk = some k then u else r), u)
  | none =>
      let fresh := { u with pk := some (udb.length + 1) }
      (udb ++ [fresh], fresh)

/-- `role_to_group` in `User.save` (`models.py`). -/
def roleGroup : Role → String
  | Role.reader => "Reader"
  | Role.editor => "Editor"
  | Role.journalist => "Journalist"

/-- `User.save` (`models.py`, lines 127–147): it calls `super().save()` and
then `self.groups.set([g])` with the role-derived group.  Unlike
`Article.save`, it never calls `full_clean`, so no `ValidationError` can be
raised on this path — the result is always `.ok`. -/
def User.save (udb : List User) (u : User) :
    Except UVErr (List User × User) :=
  let (udb1, saved) := userDbWrite udb u
  let final := { saved with groups := [roleGroup saved.role] }
  .ok (udb1.map (fun r => if r.pk = final.pk then final else r), final)

/-! ## Helper lemmas about the save pipeline -/

/-- `Article.clean` only ever touches `approved_at`: status and pk survive. -/
theorem clean_ok_proj (a b : Article) (now : Nat)
    (h : Article.clean a now = Except.ok b) :
    b.status = a.status ∧ b.pk = a.pk := by
  unfold Article.clean at h
  split_ifs at h <;>
    first
      | exact Except.noConfusion h
      | (injection h with h; subst h; exact ⟨rfl, rfl⟩)

/-- The `_just_approved` flag computed by `mark_just_approved` on an
existing row is exactly the just-approved transition test against the
persisted snapshot. -/
theorem mark_flag_existing (db : Db) (a : Article) (now : Nat) (k : Nat)
    (prev : Article) (hpk : a.pk = some k) (hprev : dbGet db k = some prev) :
    (mark_just_approved db a now).2 =
      decide (prev.status ≠ Status.approved ∧ a.status = Status.approved) := by
  unfold mark_just_approved
  rw [hpk]
  simp only [hprev]
  split_ifs with h <;> simp [h]

/-- The `post_save` receiver dispatches exactly when the flag is set. -/
theorem on_article_approved_isSome (users : List User) (a : Article)
    (j : Bool) : (on_article_approved users a j).isSome = j := by
  cases j <;> simp [on_article_approved]

/-- Unfolding of `articleSave` when validation fails. -/
theorem articleSave_eq_error (users : List User) (db : Db) (a : Article)
    (now : Nat) (e : VErr) (hclean : Article.clean a now = Except.error e) :
    articleSave users db a now = Except.error e := by
  unfold articleSave; rw [hclean]

/-- Unfolding of `articleSave` when validation passes. -/
theorem articleSave_eq_ok (users : List User) (db : Db) (a : Article)
    (now : Nat) (cleaned : Article)
    (hclean : Article.clean a now = Except.ok cleaned) :
    articleSave users db a now = Except.ok
      { db := (dbWrite db (mark_just_approved db cleaned now).1).1,
        article := (dbWrite db (mark_just_approved db cleaned now).1).2,
        justApproved := (mark_just_approved db cleaned now).2,
        fanout := on_article_approved users
          (dbWrite db (mark_just_approved db cleaned now).1).2
          (mark_just_approved db cleaned now).2 } := by
  unfold articleSave; rw [hclean]

/-- `Article.clean` is the identity on an approved article whose timestamp
is already set and whose author is a journalist. -/
theorem clean_approved_some (a : Article) (now x : Nat)
    (hj : a.author.is_journalist = true) (hst : a.status = Status.approved)
    (ha : a.approvedAt = some x) :
    Article.clean a now = Except.ok a := by
  unfold Article.clean
  simp [hj, hst, ha]

/-- `mark_just_approved` leaves the instance unchanged whenever its
`approved_at` is already set (the receiver only ever defaults the
timestamp). -/
theorem mark_keeps_approvedAt_some (db : Db) (a : Article) (now x : Nat)
    (ha : a.approvedAt = some x) :
    (mark_just_approved db a now).1 = a := by
  obtain ⟨pk, title, body, pub, author, st, cr, appAt⟩ := a
  simp only at ha
  subst ha
  unfold mark_just_approved
  cases pk with
  | none => dsimp only; split_ifs <;> rfl
  | some k =>
      dsimp only
      cases dbGet db k with
      | none => rfl
      | some prev => dsimp only; split_ifs <;> rfl

/-- The row written by `dbWrite` keeps the instance's status and
timestamp. -/
theorem dbWrite_snd_fields (db : Db) (m : Article) :
    (dbWrite db m).2.status = m.status ∧
      (dbWrite db m).2.approvedAt = m.approvedAt := by
  unfold dbWrite
  cases h : m.pk <;> simp

/-- A `dbGet` hit is a member of the database with the looked-up pk. -/
theorem dbGet_mem (db : Db) (k : Nat) (a : Article)
    (h : dbGet db k = some a) : a ∈ db ∧ a.pk = some k := by
  unfold dbGet at h
  exact ⟨List.mem_of_find?_eq_some h, by simpa using List.find?_some h⟩

/-- When the written instance's pk matches an existing row, the row written
by `dbWrite` is a member of the updated database. -/
theorem dbWrite_snd_mem (db : Db) (m : Article) (k : Nat) (r : Article)
    (hm : m.pk = some k) (hr : r ∈ db) (hrk : r.pk = some k) :
    (dbWrite db m).2 ∈ (dbWrite db m).1 := by
  unfold dbWrite
  rw [hm]
  have h2 := List.mem_map_of_mem
    (fun row => if row.pk = some k then m else row) hr
  simp only [hrk, if_pos] at h2
  exact h2

/-- `Article.clean` on an approved article with a journalist author always
succeeds, defaulting the timestamp to `now` exactly when it was unset. -/
theorem clean_approved (a : Article) (now : Nat)
    (hj : a.author.is_journalist = true) (hst : a.status = Status.approved) :
    Article.clean a now =
      Except.ok { a with approvedAt := some (a.approvedAt.getD now) } := by
  obtain ⟨pk, ti, bo, pu, au, st, cr, appAt⟩ := a
  unfold Article.clean
  cases appAt <;> simp_all

/-- A successful `Article.clean` never clears a timestamp that was set. -/
theorem clean_ok_approvedAt (a b : Article) (now t : Nat)
    (h : Article.clean a now = Except.ok b) (ha : a.approvedAt = some t) :
    b.approvedAt = some t := by
  unfold Article.clean at h
  split_ifs at h <;>
    first
      | exact Except.noConfusion h
      | (injection h with h; subst h; simp_all)

/-- A successful `Article.clean` on a non-approved article implies the
timestamp was unset (otherwise the I5 check raises). -/
theorem clean_ok_not_invalid (a b : Article) (now : Nat)
    (h : Article.clean a now = Except.ok b)
    (hne : a.status ≠ Status.approved) :
    a.approvedAt.isSome = false := by
  unfold Article.clean at h
  split_ifs at h <;>
    first
      | exact Except.noConfusion h
      | simp_all

/-- The I5 shape of a persisted row: a timestamp may be set only on an
APPROVED row. -/
def rowI5ok (r : Article) : Bool :=
  r.status = Status.approved || r.approvedAt.isNone

/-- Rows produced by a successful `Article.clean` satisfy I5. -/
theorem clean_ok_rowI5 (a b : Article) (now : Nat)
    (h : Article.clean a now = Except.ok b) : rowI5ok b = true := by
  unfold Article.clean at h
  split_ifs at h <;>
    first
      | exact Except.noConfusion h
      | (injection h with h; subst h;
         cases ha : a.approvedAt <;>
           by_cases hs : a.status = Status.approved <;> simp_all [rowI5ok])

/-- `mark_just_approved` preserves I5 (it only sets the timestamp in
branches where the new status is APPROVED). -/
theorem mark_rowI5 (db : Db) (a : Article) (now : Nat)
    (h : rowI5ok a = true) :
    rowI5ok (mark_just_approved db a now).1 = true := by
  obtain ⟨pk, ti, bo, pu, au, st, cr, appAt⟩ := a
  unfold mark_just_approved
  cases pk with
  | none =>
      dsimp only
      split_ifs with hs
      · simp_all [rowI5ok]
      · exact h
  | some k =>
      dsimp only
      cases dbGet db k with
      | none => exact h
      | some prev =>
          dsimp only
          split_ifs with hs
          · simp_all [rowI5ok]
          · exact h

/-- `dbWrite` preserves a row predicate that ignores the pk, such as I5. -/
theorem dbWrite_all_rowI5 (db : Db) (m : Article)
    (hdb : ∀ r ∈ db, rowI5ok r = true) (hm : rowI5ok m = true) :
    ∀ r ∈ (dbWrite db m).1, rowI5ok r = true := by
  unfold dbWrite
  cases hpk : m.pk with
  | some k =>
      dsimp only
      intro r hr
      obtain ⟨r0, hr0, hfr⟩ := List.mem_map.mp hr
      by_cases h : r0.pk = some k
      · rw [← hfr]; simp only [h, if_pos]; exact hm
      · rw [← hfr]; simp only [h, if_neg, ite_false]; exact hdb r0 hr0
  | none =>
      dsimp only
      intro r hr
      rcases List.mem_append.mp hr with h | h
      · exact hdb r h
      · have hr1 : r = { m with pk := some (db.length + 1) } := by
          simpa using h
        subst hr1
        exact hm

/-- The `_just_approved` flag on a fresh (never persisted) instance is
exactly "the new status is APPROVED". -/
theorem mark_flag_new (db : Db) (a : Article) (now : Nat)
    (hpk : a.pk = none) :
    (mark_just_approved db a now).2 = decide (a.status = Status.approved) := by
  unfold mark_just_approved
  rw [hpk]
  dsimp only
  split_ifs with h <;> simp [h]

/-! ## Concrete fixtures, used by the witness theorems below. -/

/-- Demo publisher. -/
def scoop : Publisher := { id := 1, name := "SCOOP" }

/-- Demo journalist (the author of the demo articles). -/
def jago : User :=
  { pk := some 1, username := "jago", email := "jago@example.com",
    role := Role.journalist, is_staff := false, is_superuser := false,
    subsToPublishers := [], subsToJournalists := [], publishedArticles := [],
    groups := ["Journalist"] }

/-- A second demo journalist. -/
def nina : User :=
  { pk := some 4, username := "nina", email := "nina@example.com",
    role := Role.journalist, is_staff := false, is_superuser := false,
    subsToPublishers := [], subsToJournalists := [], publishedArticles := [],
    groups := ["Journalist"] }

/-- Demo non-staff editor. -/
def edna : User :=
  { pk := some 2, username := "edna", email := "edna@example.com",
    role := Role.editor, is_staff := false, is_superuser := false,
    subsToPublishers := [], subsToJournalists := [], publishedArticles := [],
    groups := ["Editor"] }

/-- Demo reader subscribed to publisher 1 (SCOOP). -/
def rita : User :=
  { pk := some 3, username := "rita", email := "rita@example.com",
    role := Role.reader, is_staff := false, is_superuser := false,
    subsToPublishers := [1], subsToJournalists := [], publishedArticles := [],
    groups := ["Reader"] }

/-- Demo staff user. -/
def sam : User :=
  { pk := some 9, username := "sam", email := "sam@example.com",
    role := Role.reader, is_staff := true, is_superuser := false,
    subsToPublishers := [], subsToJournalists := [], publishedArticles := [],
    groups := ["Reader"] }

/-- A persisted pending article by `jago` at `scoop`. -/
def pendingArt : Article :=
  { pk := some 10, title := "T", body := "B", publisher := scoop,
    author := jago, status := Status.pending, createdAt := 5,
    approvedAt := none }

/-- `pendingArt` with its status switched to APPROVED (the instance an
editor saves). -/
def approvedUpd : Article := { pendingArt with status := Status.approved }

/-- A persisted, already-approved article by `jago` at `scoop`. -/
def approvedArt : Article :=
  { pk := some 11, title := "T2", body := "B2", publisher := scoop,
    author := jago, status := Status.approved, createdAt := 6,
    approvedAt := some 7 }

/-- A brand-new (never persisted) article created directly as APPROVED
with no timestamp. -/
def freshApproved : Article :=
  { pk := none, title := "N", body := "NB", publisher := scoop,
    author := jago, status := Status.approved, createdAt := 1,
    approvedAt := none }

/-- The row the first save of `freshApproved` at time 10 persists. -/
def firstSavedRow : Article :=
  { freshApproved with pk := some 1, approvedAt := some 10 }

/-- `firstSavedRow` with its timestamp manually cleared — the status never
leaves APPROVED. -/
def clearedRow : Article := { firstSavedRow with approvedAt := none }

/-- A pending article carrying a timestamp: the I5-invalid state. -/
def badArt : Article := { pendingArt with approvedAt := some 3 }

/-- `pendingArt` with a non-journalist author. -/
def nonJournalistArt : Article := { pendingArt with author := rita }

/-- A persisted Journalist-role user carrying a reader subscription (the
I1-invalid state). -/
def jspammer : User := { jago with pk := some 5, subsToPublishers := [1] }

/-! ## Claims -/

/-- C1: for every save of an existing (persisted) article, the notification
fan-out of the `post_save` receiver runs exactly when the previous
persisted status was not APPROVED and the new status is APPROVED; a save
whose persisted status already was APPROVED, or whose new status is not
APPROVED, triggers no fan-out.  (The fan-out runs at most once per save by
construction: `on_article_approved` is invoked once per `post_save`.) -/
theorem save_existing_fanout_iff_transition
    (users : List User) (db : Db) (a : Article) (k : Nat) (prev : Article)
    (now : Nat) (res : SaveResult)
    (hpk : a.pk = some k) (hprev : dbGet db k = some prev)
    (hok : articleSave users db a now = Except.ok res) :
    res.fanout.isSome = true ↔
      (prev.status ≠ Status.approved ∧ a.status = Status.approved) := by
  cases hclean : Article.clean a now with
  | error e =>
      rw [articleSave_eq_error users db a now e hclean] at hok
      exact Except.noConfusion hok
  | ok cleaned =>
      rw [articleSave_eq_ok users db a now cleaned hclean] at hok
      injection hok with hok
      subst hok
      obtain ⟨hst, hpk2⟩ := clean_ok_proj a cleaned now hclean
      simp only [on_article_approved_isSome,
        mark_flag_existing db cleaned now k prev (hpk2.trans hpk) hprev,
        hst, decide_eq_true_eq]

/-- Witness for C1: approving the persisted pending `pendingArt` triggers
the fan-out. -/
theorem save_existing_fanout_iff_transition_witness :
    ((articleSave [rita] [pendingArt] approvedUpd 42).toOption.map
        (fun r => r.fanout.isSome)) = some true ∧
    pendingArt.status ≠ Status.approved ∧
    approvedUpd.status = Status.approved := by
  refine ⟨?_, by decide, rfl⟩
  cases h : articleSave [rita] [pendingArt] approvedUpd 42 with
  | error e =>
      have hk : (articleSave [rita] [pendingArt] approvedUpd 42).isOk = true := by
        decide
      rw [h] at hk
      exact Bool.noConfusion hk
  | ok res =>
      have hiff := save_existing_fanout_iff_transition [rita] [pendingArt]
        approvedUpd 10 pendingArt 42 res (by decide) (by decide) h
      have hf : res.fanout.isSome = true := hiff.mpr (by decide)
      simp [Except.toOption, hf]

/-- C2: the `approve` action is idempotent.  On an article whose persisted
status is already APPROVED it returns `"already_approved"` with the
existing `approved_at`, leaves the database untouched and fires no
fan-out.  On an article not yet APPROVED (whose author is a journalist, as
every persisted article's is) it returns `"approved"`, sets the status to
APPROVED, sets `approved_at` to the existing value or `now`, and persists
the written row in the database. -/
theorem approve_idempotent (users : List User) (db : Db) (a : Article)
    (k now : Nat) (hpk : a.pk = some k) (hget : dbGet db k = some a) :
    (a.status = Status.approved →
      approve users db a now = Except.ok
        { result := ApproveStatus.already_approved, approvedAt := a.approvedAt,
          db := db, fanout := none, savedRow := none }) ∧
    (a.status ≠ Status.approved → a.author.is_journalist = true →
      (approve users db a now).toOption.map
          (fun r => (r.result, r.approvedAt,
            r.savedRow.map (fun s => (s.status, s.approvedAt)),
            r.savedRow.all (fun s => decide (s ∈ r.db)))) =
        some (ApproveStatus.approved, some (a.approvedAt.getD now),
          some (Status.approved, some (a.approvedAt.getD now)), true)) := by
  constructor
  · intro hst
    unfold approve
    rw [if_neg (not_not_intro hst)]
  · intro hne hj
    unfold approve
    rw [if_pos hne]
    have hclean : Article.clean
        { a with status := Status.approved,
                 approvedAt := some (a.approvedAt.getD now) } now =
        Except.ok { a with status := Status.approved,
                           approvedAt := some (a.approvedAt.getD now) } :=
      clean_approved_some _ now (a.approvedAt.getD now) hj rfl rfl
    rw [articleSave_eq_ok users db _ now _ hclean]
    have hmark : (mark_just_approved db
        { a with status := Status.approved,
                 approvedAt := some (a.approvedAt.getD now) } now).1 =
        { a with status := Status.approved,
                 approvedAt := some (a.approvedAt.getD now) } :=
      mark_keeps_approvedAt_some db _ now _ rfl
    rw [hmark]
    obtain ⟨hmem, hak⟩ := dbGet_mem db k a hget
    have hwmem := dbWrite_snd_mem db
      { a with status := Status.approved,
               approvedAt := some (a.approvedAt.getD now) } k a hpk hmem hak
    obtain ⟨hws, hwa⟩ := dbWrite_snd_fields db
      { a with status := Status.approved,
               approvedAt := some (a.approvedAt.getD now) }
    simp [Except.toOption, hws, hwa, hwmem]

/-- Witness for C2: approving the already-approved `approvedArt` is a
no-op; approving the pending `pendingArt` at time 42 approves and persists
it with `approved_at = 42`. -/
theorem approve_idempotent_witness :
    approve [rita] [approvedArt] approvedArt 42 = Except.ok
      { result := ApproveStatus.already_approved, approvedAt := some 7,
        db := [approvedArt], fanout := none, savedRow := none } ∧
    (approve [rita] [pendingArt] pendingArt 42).toOption.map
        (fun r => (r.result, r.approvedAt,
          r.savedRow.map (fun s => (s.status, s.approvedAt)),
          r.savedRow.all (fun s => decide (s ∈ r.db)))) =
      some (ApproveStatus.approved, some 42,
        some (Status.approved, some 42), true) := by
  constructor
  · exact (approve_idempotent [rita] [approvedArt] approvedArt 11 42
      (by decide) (by decide)).1 rfl
  · exact (approve_idempotent [rita] [pendingArt] pendingArt 10 42
      (by decide) (by decide)).2 (by decide) (by decide)

/-- C3 (amended): saving an article with status APPROVED and a null
timestamp auto-populates `approved_at` with the current time, and a save
of an instance whose timestamp is set persists it unchanged; but
auto-population recurs after any manual clear of the timestamp, whether or
not the status ever left APPROVED (the status-cycling condition of the
claim is not required by the code). -/
theorem approvedAt_autopopulated_and_stable (users : List User) (db : Db)
    (a : Article) (now t : Nat) :
    (a.status = Status.approved → a.approvedAt = none →
      a.author.is_journalist = true →
      (articleSave users db a now).toOption.map
          (fun r => r.article.approvedAt) = some (some now)) ∧
    (a.approvedAt = some t →
      ∀ res, articleSave users db a now = Except.ok res →
        res.article.approvedAt = some t) := by
  constructor
  · intro hst hnull hj
    have hclean := clean_approved a now hj hst
    rw [hnull] at hclean
    rw [articleSave_eq_ok users db a now _ hclean]
    rw [mark_keeps_approvedAt_some db _ now now rfl]
    obtain ⟨hws, hwa⟩ := dbWrite_snd_fields db { a with approvedAt := some now }
    simp [Except.toOption, hwa]
  · intro ht res hok
    cases hclean : Article.clean a now with
    | error e =>
        rw [articleSave_eq_error users db a now e hclean] at hok
        exact Except.noConfusion hok
    | ok cleaned =>
        rw [articleSave_eq_ok users db a now cleaned hclean] at hok
        injection hok with hok
        subst hok
        have hca := clean_ok_approvedAt a cleaned now t hclean ht
        show (dbWrite db (mark_just_approved db cleaned now).1).2.approvedAt
          = some t
        rw [mark_keeps_approvedAt_some db cleaned now t hca]
        exact (dbWrite_snd_fields db cleaned).2.trans hca

/-- Witness for C3 (amended): a save of the approved `approvedUpd` with a
null timestamp populates it with the save time 42; re-saving the approved
`approvedArt` (timestamp 7) keeps the timestamp 7. -/
theorem approvedAt_autopopulated_and_stable_witness :
    ((articleSave [rita] [pendingArt] approvedUpd 42).toOption.map
        (fun r => r.article.approvedAt)) = some (some 42) ∧
    ((articleSave [] [approvedArt] approvedArt 99).toOption.map
        (fun r => r.article.approvedAt)) = some (some 7) := by
  constructor
  · exact (approvedAt_autopopulated_and_stable [rita] [pendingArt]
      approvedUpd 42 0).1 rfl rfl rfl
  · cases h : articleSave [] [approvedArt] approvedArt 99 with
    | error e =>
        have hk : (articleSave [] [approvedArt] approvedArt 99).isOk = true := by
          decide
        rw [h] at hk
        exact Bool.noConfusion hk
    | ok res =>
        have hres := (approvedAt_autopopulated_and_stable [] [approvedArt]
          approvedArt 99 7).2 rfl res h
        simp [Except.toOption, hres]

/-- Counterexample for C3 as stated: after the first save auto-populates
`approved_at = 10`, manually clearing the timestamp and saving again
auto-populates it a second time (to 20) even though the status is APPROVED
at every point of the story and never cycles out of APPROVED — the claim
allows a second auto-population only when the status also cycles. -/
theorem approvedAt_repopulated_without_cycle :
    ((articleSave [] [] freshApproved 10).toOption.map
        (fun r => (r.db, r.article.approvedAt))) =
      some ([firstSavedRow], some 10) ∧
    ((articleSave [] [firstSavedRow] clearedRow 20).toOption.map
        (fun r => r.article.approvedAt)) = some (some 20) ∧
    freshApproved.status = Status.approved ∧
    firstSavedRow.status = Status.approved ∧
    clearedRow.status = Status.approved := by
  decide

/-- C4: saving an article whose status is not APPROVED while its timestamp
is set fails validation — nothing is persisted, the save returns an error
(an `Except.error` carries no database, so no partial mutation is
possible) — and, moreover, every successful save preserves the I5 shape of
the database: a persisted row's timestamp is set only when the row is
APPROVED, so the invalid state is never observable among persisted rows. -/
theorem invalid_timestamp_rejected (users : List User) (db : Db)
    (a : Article) (now : Nat) :
    (a.status ≠ Status.approved → a.approvedAt.isSome = true →
      (articleSave users db a now).isOk = false) ∧
    ((∀ r ∈ db, rowI5ok r = true) →
      ∀ res, articleSave users db a now = Except.ok res →
        ∀ r ∈ res.db, rowI5ok r = true) := by
  constructor
  · intro hne hsome
    cases hclean : Article.clean a now with
    | error e => rw [articleSave_eq_error users db a now e hclean]; rfl
    | ok cleaned =>
        rw [clean_ok_not_invalid a cleaned now hclean hne] at hsome
        exact Bool.noConfusion hsome
  · intro hdb res hok r hr
    cases hclean : Article.clean a now with
    | error e =>
        rw [articleSave_eq_error users db a now e hclean] at hok
        exact Except.noConfusion hok
    | ok cleaned =>
        rw [articleSave_eq_ok users db a now cleaned hclean] at hok
        injection hok with hok
        subst hok
        exact dbWrite_all_rowI5 db _ hdb
          (mark_rowI5 db cleaned now (clean_ok_rowI5 a cleaned now hclean))
          r hr

/-- Witness for C4: saving the pending-with-timestamp `badArt` fails, and
the database after approving `pendingArt` still satisfies I5 row-wise. -/
theorem invalid_timestamp_rejected_witness :
    (articleSave [rita] [pendingArt] badArt 42).isOk = false ∧
    ((articleSave [rita] [pendingArt] approvedUpd 42).toOption.map
        (fun r => r.db.all rowI5ok)) = some true := by
  constructor
  · exact (invalid_timestamp_rejected [rita] [pendingArt] badArt 42).1
      (by decide) (by decide)
  · cases h : articleSave [rita] [pendingArt] approvedUpd 42 with
    | error e =>
        have hk : (articleSave [rita] [pendingArt] approvedUpd 42).isOk
            = true := by decide
        rw [h] at hk
        exact Bool.noConfusion hk
    | ok res =>
        have hall := (invalid_timestamp_rejected [rita] [pendingArt]
          approvedUpd 42).2 (by decide) res h
        simp [Except.toOption]
        exact hall

/-- C6: saving an article whose author does not hold the Journalist role
fails with the author-role `ValidationError`; with a Journalist author the
author check never fires (the save can only fail on the timestamp
check). -/
theorem author_role_validation (users : List User) (db : Db) (a : Article)
    (now : Nat) :
    (a.author.is_journalist = false →
      articleSave users db a now = Except.error VErr.authorRole) ∧
    (a.author.is_journalist = true →
      articleSave users db a now ≠ Except.error VErr.authorRole) := by
  constructor
  · intro h
    have hclean : Article.clean a now = Except.error VErr.authorRole := by
      unfold Article.clean
      simp [h]
    exact articleSave_eq_error users db a now _ hclean
  · intro hj heq
    cases hclean : Article.clean a now with
    | ok cleaned =>
        rw [articleSave_eq_ok users db a now cleaned hclean] at heq
        exact Except.noConfusion heq
    | error e =>
        rw [articleSave_eq_error users db a now e hclean] at heq
        injection heq with heq
        subst heq
        unfold Article.clean at hclean
        split_ifs at hclean
        all_goals simp_all

/-- Witness for C6: the reader-authored `nonJournalistArt` is rejected
with the author-role error; `pendingArt` (journalist author) is not. -/
theorem author_role_validation_witness :
    articleSave [] [pendingArt] nonJournalistArt 42
        = Except.error VErr.authorRole ∧
    articleSave [] [pendingArt] pendingArt 42
        ≠ Except.error VErr.authorRole := by
  constructor
  · exact (author_role_validation [] [pendingArt] nonJournalistArt 42).1 rfl
  · exact (author_role_validation [] [pendingArt] pendingArt 42).2 rfl

/-- C10: saving a brand-new article (no persisted row, `pk` unset) created
directly with status APPROVED counts as a just-approved transition: the
save sets `approved_at` (to the existing value, else `now`) and triggers
the notification fan-out exactly once. -/
theorem new_approved_article_fanout (users : List User) (db : Db)
    (a : Article) (now : Nat) (hpk : a.pk = none)
    (hst : a.status = Status.approved) (hj : a.author.is_journalist = true) :
    (articleSave users db a now).toOption.map
        (fun r => (r.justApproved, r.fanout.isSome, r.article.approvedAt)) =
      some (true, true, some (a.approvedAt.getD now)) := by
  have hclean := clean_approved a now hj hst
  rw [articleSave_eq_ok users db a now _ hclean]
  have hm1 := mark_keeps_approvedAt_some db
    { a with approvedAt := some (a.approvedAt.getD now) } now
    (a.approvedAt.getD now) rfl
  have hm2 : (mark_just_approved db
      { a with approvedAt := some (a.approvedAt.getD now) } now).2 = true := by
    rw [mark_flag_new db { a with approvedAt := some (a.approvedAt.getD now) }
      now (show ({ a with approvedAt := some (a.approvedAt.getD now) }
        : Article).pk = none from hpk)]
    simp [hst]
  rw [hm1, hm2]
  obtain ⟨hws, hwa⟩ := dbWrite_snd_fields db
    { a with approvedAt := some (a.approvedAt.getD now) }
  simp [Except.toOption, on_article_approved_isSome, hwa]

/-- Witness for C10: the fresh APPROVED `freshApproved` saved at time 10
is marked just-approved, fans out, and gets `approved_at = 10`. -/
theorem new_approved_article_fanout_witness :
    (articleSave [rita] [] freshApproved 10).toOption.map
        (fun r => (r.justApproved, r.fanout.isSome, r.article.approvedAt)) =
      some (true, true, some 10) := by
  exact new_approved_article_fanout [rita] [] freshApproved 10 rfl rfl rfl

/-- The spec's description of the recipient set: a non-empty email of a
Reader-role user subscribed to the article's publisher or to its
author. -/
def specRecipient (users : List User) (a : Article) (e : String) : Prop :=
  e ≠ "" ∧ ∃ u ∈ users, u.role = Role.reader ∧
    (a.publisher.id ∈ u.subsToPublishers ∨
      (a.author.pk.getD 0) ∈ u.subsToJournalists) ∧ u.email = e

/-- The computed email list matches the spec's recipient set. -/
theorem mem_subscriber_emails (users : List User) (a : Article)
    (e : String) :
    e ∈ subscriber_emails users a ↔ specRecipient users a e := by
  unfold subscriber_emails specRecipient
  simp only [List.mem_filter, List.mem_dedup, List.mem_map, User.is_reader,
    decide_eq_true_eq]
  constructor
  · rintro ⟨⟨u, ⟨hmem, hrole, hsub⟩, hue⟩, hne⟩
    exact ⟨by simpa using hne, u, hmem, hrole, hsub, hue⟩
  · rintro ⟨hne, u, hmem, hrole, hsub, hue⟩
    exact ⟨⟨u, ⟨hmem, hrole, hsub⟩, hue⟩, by simpa using hne⟩

/-- C5: on a just-approved fan-out, the recipient list is exactly the
distinct (duplicate-free) set of non-empty emails of Reader-role users
subscribed to the article's publisher or author, and one message is built
per recipient, with subject `"{publisher.name}: {article.title}"` and body
the article body truncated to 500 characters with an ellipsis marker
exactly when it was truncated. -/
theorem fanout_recipients_and_messages (users : List User) (a : Article)
    (fo : FanOut) (h : on_article_approved users a true = some fo) :
    (∀ e, e ∈ fo.recipients ↔ specRecipient users a e) ∧
    fo.recipients.Nodup ∧
    fo.subscriberMsgs = fo.recipients.map (fun addr =>
      { subject := a.publisher.name ++ ": " ++ a.title,
        body := preview a.body, recipient := addr }) ∧
    (a.body.length ≤ 500 → preview a.body = a.body) ∧
    (500 < a.body.length → preview a.body = a.body.take 500 ++ "...") := by
  have hrec : fo.recipients = subscriber_emails users a := by
    have h0 : (on_article_approved users a true).map FanOut.recipients
        = some (subscriber_emails users a) := rfl
    rw [h] at h0
    simpa using h0
  have hmsg : fo.subscriberMsgs = (subscriber_emails users a).map
      (fun addr =>
        { subject := a.publisher.name ++ ": " ++ a.title,
          body := preview a.body, recipient := addr }) := by
    have h0 : (on_article_approved users a true).map FanOut.subscriberMsgs
        = some ((subscriber_emails users a).map (fun addr =>
          { subject := a.publisher.name ++ ": " ++ a.title,
            body := preview a.body, recipient := addr })) := rfl
    rw [h] at h0
    simpa using h0
  refine ⟨?_, ?_, ?_, ?_, ?_⟩
  · intro e
    rw [hrec]
    exact mem_subscriber_emails users a e
  · rw [hrec]
    exact (List.nodup_dedup _).filter _
  · rw [hmsg, hrec]
  · intro hle
    unfold preview
    rw [if_pos hle]
  · intro hgt
    unfold preview
    rw [if_neg (by omega)]

/-- The concrete fan-out of approving `approvedUpd` with `rita`
subscribed to SCOOP. -/
def fo0C5 : FanOut :=
  { recipients := ["rita@example.com"],
    subscriberMsgs := [{ subject := "SCOOP: T", body := "B",
                         recipient := "rita@example.com" }],
    authorMsg := some
      { subject := "Article approved: T",
        body := "Hi jago,\n\nYour article 'T' at SCOOP was approved.",
        recipient := "jago@example.com" } }

/-- Witness for C5: with readers `[rita]`, the fan-out for `approvedUpd`
is exactly `fo0C5`: rita is its one recipient, the list is
duplicate-free, and the one message follows the subject/body format. -/
theorem fanout_recipients_and_messages_witness :
    ("rita@example.com" ∈ fo0C5.recipients) ∧ fo0C5.recipients.Nodup ∧
    fo0C5.subscriberMsgs = fo0C5.recipients.map (fun addr =>
      { subject := approvedUpd.publisher.name ++ ": " ++ approvedUpd.title,
        body := preview approvedUpd.body, recipient := addr }) := by
  have h := fanout_recipients_and_messages [rita] approvedUpd fo0C5 (by decide)
  refine ⟨(h.1 "rita@example.com").mpr ?_, h.2.1, h.2.2.1⟩
  exact ⟨by decide, rita, by decide, by decide, by decide, by decide⟩

/-- C7 (evaluation at the failing input): a non-staff Editor (`edna`) is
rejected at the view-level `IsJournalist` permission gate before
`get_object` or `perform_update` / `perform_destroy` can run, so an
Editor can update or delete no article through the API — contradicting
`perform_update`'s own docstring ("Editors: can update any article") and
the intended policy.  The rest of the implemented flow: a Journalist may
update their own article; another journalist's PENDING article is not in
their queryset, so the request 404s at `get_object` (rather than the
claimed PermissionDenied), while another journalist's APPROVED article is
visible and draws the `PermissionDenied` of `perform_update` /
`perform_destroy`; staff may update any article; a Reader is denied at
the gate; and every non-allowed outcome leaves the database unchanged. -/
theorem editor_denied_update_delete_at_view_gate :
    edna.role = Role.editor ∧ edna.is_staff = false ∧
    edna.is_superuser = false ∧
    update_decision edna [pendingArt] 10 = Decision.deniedView ∧
    destroy_decision edna [pendingArt] 10 = Decision.deniedView ∧
    apiUpdate [rita] [pendingArt] edna 10 approvedUpd 42 =
      (Decision.deniedView, [pendingArt]) ∧
    apiDestroy [pendingArt] edna 10 =
      (Decision.deniedView, [pendingArt]) ∧
    update_decision jago [pendingArt] 10 = Decision.allowed ∧
    update_decision nina [pendingArt] 10 = Decision.notFound ∧
    destroy_decision nina [pendingArt] 10 = Decision.notFound ∧
    apiUpdate [rita] [pendingArt] nina 10 approvedUpd 42 =
      (Decision.notFound, [pendingArt]) ∧
    update_decision nina [approvedArt] 11 = Decision.deniedObject ∧
    destroy_decision nina [approvedArt] 11 = Decision.deniedObject ∧
    apiDestroy [approvedArt] nina 11 =
      (Decision.deniedObject, [approvedArt]) ∧
    update_decision sam [pendingArt] 10 = Decision.allowed ∧
    update_decision rita [pendingArt] 10 = Decision.deniedView := by
  decide

/-- C8: for a Reader, the subscribed-articles query returns exactly the
APPROVED articles whose publisher is among the reader's subscribed
publishers or whose author is among their subscribed journalists, in
descending (approval time, creation time) order. -/
theorem subscribed_query_spec (db : Db) (u : User)
    (hu : u.is_reader = true) :
    (∀ a, a ∈ subscribed db u ↔
      (a ∈ db ∧ a.status = Status.approved ∧
        (a.publisher.id ∈ u.subsToPublishers ∨
          (a.author.pk.getD 0) ∈ u.subsToJournalists))) ∧
    (subscribed db u).Sorted newestFirst := by
  unfold subscribed
  rw [if_pos hu]
  constructor
  · intro a
    rw [(List.perm_insertionSort newestFirst _).mem_iff, List.mem_filter]
    simp [and_assoc]
  · exact List.sorted_insertionSort newestFirst _

/-- Witness for C8: with `rita` (subscribed to publisher 1) and database
`[approvedArt, pendingArt]`, the approved article is returned and the
pending one is not, and the result is sorted newest-first. -/
theorem subscribed_query_spec_witness :
    approvedArt ∈ subscribed [approvedArt, pendingArt] rita ∧
    pendingArt ∉ subscribed [approvedArt, pendingArt] rita ∧
    (subscribed [approvedArt, pendingArt] rita).Sorted newestFirst := by
  have h := subscribed_query_spec [approvedArt, pendingArt] rita rfl
  refine ⟨(h.1 approvedArt).mpr (by decide), ?_, h.2⟩
  intro hmem
  have h2 := ((h.1 pendingArt).mp hmem).2.1
  exact absurd h2 (by decide)

/-- C9 (amended): `User.clean` rejects a persisted Journalist with a
non-empty reader-subscription set with a `ValidationError`, but
`User.save` never invokes this validation, so a direct save of such a user
succeeds; the error surfaces only where validation (`full_clean`) is
explicitly run, e.g. form or admin flows. -/
theorem journalist_subscriptions_clean_only (udb : List User) (u : User)
    (hrole : u.role = Role.journalist) (hpk : u.pk.isSome = true)
    (hsubs : u.subsToPublishers ≠ [] ∨ u.subsToJournalists ≠ []) :
    User.clean u = Except.error UVErr.journalistSubs ∧
    (User.save udb u).isOk = true := by
  constructor
  · unfold User.clean
    rw [if_pos ⟨hrole, hpk, hsubs⟩]
  · rfl

/-- Witness for C9 (amended), at the concrete journalist `jspammer`. -/
theorem journalist_subscriptions_clean_only_witness :
    User.clean jspammer = Except.error UVErr.journalistSubs ∧
    (User.save [jspammer] jspammer).isOk = true := by
  exact journalist_subscriptions_clean_only [jspammer] jspammer rfl rfl
    (Or.inl (by decide))

/-- Counterexample for C9 as stated: `jspammer` is a persisted Journalist
with a non-empty publisher-subscription set, yet saving succeeds — no
`ValidationError` is raised, because `User.save` does not call
`full_clean`. -/
theorem journalist_with_subscriptions_save_succeeds :
    jspammer.role = Role.journalist ∧ jspammer.pk.isSome = true ∧
    jspammer.subsToPublishers ≠ [] ∧
    (User.save [jspammer] jspammer).isOk = true := by
  decide

end Newsroom
